import Mathlib

/-!
Verification development for the EU4 AI inference server
(`scripts/inference_server.py`).  The definitions below are a shallow
embedding of the server's request pipeline: newline framing of the byte
stream (`handle_client`'s buffer loop), the Python dictionary operations
used by `_process_request`, the serialization of responses, the lock
discipline of `generate`, and the accept loop of `serve`.
-/

namespace InfServer

/-- JSON values as produced by `json.loads`.  Numbers are modelled as
integers (the protocol only ever uses integer fields); an object keeps its
key/value pairs in order, later duplicates shadowing earlier ones exactly
as `json.loads` builds a `dict`. -/
inductive Json where
  | null
  | bool (b : Bool)
  | num (n : Int)
  | str (s : String)
  | arr (elems : List Json)
  | obj (fields : List (String × Json))

/-- Whether a JSON value is an object (a Python `dict`). -/
def Json.isObj : Json → Bool
  | .obj _ => true
  | _ => false

/-- The two response shapes the server ever builds:
`{"response": ..., "inference_ms": ...}` and `{"error": ...}`. -/
inductive Response where
  | success (response : String) (inference_ms : Int)
  | error (message : String)
deriving DecidableEq

/-- Python string equality against a JSON element, as used by
`"prompt" in some_list`: only a string element can compare equal. -/
def jsonEqStr (j : Json) (s : String) : Bool :=
  match j with
  | .str t => t == s
  | _ => false

/-- Last-wins lookup in an object's field list: the value `request[key]`
would see, matching how `json.loads` resolves duplicate keys. -/
def lookupField (kvs : List (String × Json)) (key : String) : Option Json :=
  kvs.foldl (fun acc kv => if kv.1 == key then some kv.2 else acc) none

/-- Whether `pat` occurs as a contiguous substring of `s`
(Python `pat in s` on strings). -/
def charsInfix (pat s : List Char) : Bool :=
  match s with
  | [] => pat.isEmpty
  | _ :: t => pat.isPrefixOf s || charsInfix pat t

/-- Python `key in request` for an arbitrary JSON value: key membership for
dictionaries, element equality for lists, substring test for strings, and a
`TypeError` for non-iterable values. -/
def pyContains (j : Json) (key : String) : Except String Bool :=
  match j with
  | .obj kvs => .ok (kvs.any (fun kv => kv.1 == key))
  | .arr xs => .ok (xs.any (fun e => jsonEqStr e key))
  | .str s => .ok (charsInfix key.toList s.toList)
  | .num _ => .error "argument of type 'int' is not iterable"
  | .bool _ => .error "argument of type 'bool' is not iterable"
  | .null => .error "argument of type 'NoneType' is not iterable"

/-- Python `request[key]` for an arbitrary JSON value: dictionary lookup
(`KeyError` when absent), and a `TypeError` for every other value. -/
def pyGetItem (j : Json) (key : String) : Except String Json :=
  match j with
  | .obj kvs =>
    match lookupField kvs key with
    | some v => .ok v
    | none => .error ("'" ++ key ++ "'")
  | .arr _ => .error "list indices must be integers or slices, not str"
  | .str _ => .error "string indices must be integers"
  | .num _ => .error "'int' object is not subscriptable"
  | .bool _ => .error "'bool' object is not subscriptable"
  | .null => .error "'NoneType' object is not subscriptable"

/-- Python `request.get(key, dflt)`: defaulting lookup on dictionaries, an
`AttributeError` for every other value. -/
def pyGetDefault (j : Json) (key : String) (dflt : Json) : Except String Json :=
  match j with
  | .obj kvs => .ok ((lookupField kvs key).getD dflt)
  | .arr _ => .error "'list' object has no attribute 'get'"
  | .str _ => .error "'str' object has no attribute 'get'"
  | .num _ => .error "'int' object has no attribute 'get'"
  | .bool _ => .error "'bool' object has no attribute 'get'"
  | .null => .error "'NoneType' object has no attribute 'get'"

/-- The handler's external collaborators: `dec` models
`line.decode("utf-8")`, `loads` models `json.loads`, and `gen` models the
observable behavior of `self.generate(prompt, max_tokens)`, indexed by how
many generate calls came before (the engine is stateful), returning the
generated text and the measured `inference_ms` or raising. -/
structure Env where
  dec : List Nat → Except String String
  loads : String → Except String Json
  gen : Nat → Json → Json → Except String (String × Int)

/-- `InferenceServer._process_request` (lines 197-209): reject a request
without a "prompt" key, read `prompt` and `max_tokens` (default 50), call
`self.generate` catching its exceptions.  An `Except.error` result models
an exception escaping `_process_request` itself (for example the
`TypeError` raised by `"prompt" in 5`); the returned list extends `calls`
with the `(prompt, max_tokens)` arguments of each generate invocation. -/
def processRequest (env : Env) (calls : List (Json × Json)) (j : Json) :
    Except String Response × List (Json × Json) :=
  match pyContains j "prompt" with
  | .error e => (.error e, calls)
  | .ok false => (.ok (.error "Missing 'prompt' field"), calls)
  | .ok true =>
    match pyGetItem j "prompt" with
    | .error e => (.error e, calls)
    | .ok prompt =>
      match pyGetDefault j "max_tokens" (.num 50) with
      | .error e => (.error e, calls)
      | .ok maxTok =>
        match env.gen calls.length prompt maxTok with
        | .ok (r, ms) => (.ok (.success r ms), calls ++ [(prompt, maxTok)])
        | .error e => (.ok (.error e), calls ++ [(prompt, maxTok)])

/-- The `try`/`except` block of `handle_client` (lines 179-185) around one
frame: decode UTF-8, parse JSON (`json.JSONDecodeError` becomes an
"Invalid JSON: ..." error), process the request, and convert any other
exception into an `{"error": str(e)}` response. -/
def lineResponse (env : Env) (calls : List (Json × Json)) (line : List Nat) :
    Response × List (Json × Json) :=
  match env.dec line with
  | .error e => (.error e, calls)
  | .ok s =>
    match env.loads s with
    | .error e => (.error ("Invalid JSON: " ++ e), calls)
    | .ok j =>
      match processRequest env calls j with
      | (.error e, c) => (.error e, c)
      | (.ok r, c) => (r, c)

/-- The ASCII whitespace bytes stripped by `bytes.strip()`. -/
def isSpaceByte (b : Nat) : Bool :=
  b == 32 || b == 9 || b == 10 || b == 13 || b == 11 || b == 12

/-- Whether `line.strip()` is empty: the frame is skipped silently. -/
def wsOnly (line : List Nat) : Bool := line.all isSpaceByte

/-- The inner loop `while b"\n" in buffer: line, buffer = buffer.split(b"\n", 1)`
of `handle_client`: the complete newline-terminated frames of the buffer, in
order, and the remaining bytes after the last newline. -/
def splitNl : List Nat → List (List Nat) × List Nat
  | [] => ([], [])
  | b :: rest =>
    if b = 10 then ([] :: (splitNl rest).1, (splitNl rest).2)
    else
      match (splitNl rest).1 with
      | [] => ([], b :: (splitNl rest).2)
      | l :: ls => ((b :: l) :: ls, (splitNl rest).2)

/-- Processing a batch of extracted frames: whitespace-only frames are
skipped (`if not line.strip(): continue`), every other frame produces
exactly one response, the engine-call log threading through. -/
def processLines (env : Env) (calls : List (Json × Json)) :
    List (List Nat) → List Response × List (Json × Json)
  | [] => ([], calls)
  | l :: ls =>
    if wsOnly l then processLines env calls ls
    else
      let rc := lineResponse env calls l
      let rest := processLines env rc.2 ls
      (rc.1 :: rest.1, rest.2)

/-- `InferenceServer.handle_client` (lines 164-189) over a list of `recv`
results: append each read to the buffer, drain the complete frames,
respond to each; an empty read (peer closed) ends the loop.  Returns the
responses written to the socket, in order, and the engine-call log. -/
def handleClient (env : Env) (calls : List (Json × Json)) (buffer : List Nat) :
    List (List Nat) → List Response × List (Json × Json)
  | [] => ([], calls)
  | data :: reads =>
    if data.isEmpty then ([], calls)
    else
      let p := splitNl (buffer ++ data)
      let rc := processLines env calls p.1
      let rest := handleClient env rc.2 p.2 reads
      (rc.1 ++ rest.1, rest.2)

/-- The sixteen lowercase hexadecimal digit characters. -/
def hexChars : List Char := "0123456789abcdef".toList

/-- The hexadecimal digit character of `n mod 16`. -/
def hexChar (n : Nat) : Char := hexChars.getD (n % 16) '0'

/-- Four lowercase hex digits, as in Python's `\uXXXX` escapes. -/
def hex4 (n : Nat) : List Char :=
  [hexChar (n / 4096), hexChar (n / 256), hexChar (n / 16), hexChar n]

/-- How `json.dumps` (with its default `ensure_ascii=True`) renders one
character inside a string literal: the two-character escapes for quote,
backslash and common control characters, `\uXXXX` for the remaining
control characters and everything non-ASCII (a surrogate pair beyond the
BMP), the character itself otherwise. -/
def escapeChar (c : Char) : List Char :=
  if c = '"' then ['\\', '"']
  else if c = '\\' then ['\\', '\\']
  else if c = '\n' then ['\\', 'n']
  else if c = '\r' then ['\\', 'r']
  else if c = '\t' then ['\\', 't']
  else if c = '\x08' then ['\\', 'b']
  else if c = '\x0c' then ['\\', 'f']
  else if c.toNat < 32 || 126 < c.toNat then
    if c.toNat ≤ 65535 then '\\' :: 'u' :: hex4 c.toNat
    else
      '\\' :: 'u' :: hex4 (55296 + (c.toNat - 65536) / 1024) ++
        '\\' :: 'u' :: hex4 (56320 + (c.toNat - 65536) % 1024)
  else [c]

/-- A JSON string literal for `s`, as `json.dumps` renders it. -/
def dumpStr (s : String) : String :=
  ⟨'"' :: (s.toList.map escapeChar).flatten ++ ['"']⟩

/-- The decimal digits of `n`, most significant first, as Python's
`str(int)` renders a non-negative number. -/
def natChars (n : Nat) : List Char :=
  if n < 10 then [hexChar n]
  else natChars (n / 10) ++ [hexChar (n % 10)]
decreasing_by exact Nat.div_lt_self (by omega) (by omega)

/-- Python's `str(int)`. -/
def renderInt (i : Int) : String :=
  if i < 0 then ⟨'-' :: natChars i.natAbs⟩ else ⟨natChars i.natAbs⟩

/-- `json.dumps(response)` for the two dictionaries `_process_request`
builds (lines 200 and 207): insertion-ordered keys, the default
`", "` and `": "` separators. -/
def dumps : Response → String
  | .success r ms =>
    "\x7b\"response\": " ++ dumpStr r ++ ", \"inference_ms\": " ++ renderInt ms ++ "\x7d"
  | .error m => "\x7b\"error\": " ++ dumpStr m ++ "\x7d"

/-- The bytes written for one response (line 188):
`json.dumps(response).encode("utf-8") + b"\n"`, at the text level. -/
def respLine (r : Response) : String := dumps r ++ "\n"

/-- The dictionary underlying each response, with its wire-format keys. -/
def responseJson : Response → Json
  | .success r ms => .obj [("response", .str r), ("inference_ms", .num ms)]
  | .error m => .obj [("error", .str m)]

/-! ### The serialization gate

`InferenceServer.__init__` creates `self.lock = Lock()` once (line 64) and
`generate` brackets the whole engine interaction in `with self.lock:`
(lines 138-155).  The transition system below models the connection-handler
threads competing for that lock: a thread is `idle`, `waiting` at
`with self.lock`, or `critical` inside the block; Python's `with`
statement releases the lock on both normal and exceptional exit, which the
`release` step models with an explicit exception flag that the resulting
state does not depend on. -/

/-- Where one connection-handler thread stands relative to the lock. -/
inductive Phase where
  | idle
  | waiting
  | critical
deriving DecidableEq

/-- Pointwise update of a thread-indexed map. -/
def upd {n : Nat} (f : Fin n → Phase) (i : Fin n) (v : Phase) : Fin n → Phase :=
  fun j => if j = i then v else f j

/-- The shared state: each thread's phase and the lock's owner. -/
structure GateState (n : Nat) where
  phase : Fin n → Phase
  owner : Option (Fin n)

/-- All threads idle, the lock free: the state right after `__init__`. -/
def gateInit (n : Nat) : GateState n := ⟨fun _ => .idle, none⟩

/-- One step of one thread: a request reaches `self.generate` (request),
the `with self.lock` acquisition succeeds only while no thread holds the
lock (acquire), and leaving the `with` block frees the lock whether the
body returned or raised (release, with `exc` recording which). -/
inductive GateStep {n : Nat} : GateState n → GateState n → Prop where
  | request (s : GateState n) (i : Fin n) :
      s.phase i = .idle → GateStep s ⟨upd s.phase i .waiting, s.owner⟩
  | acquire (s : GateState n) (i : Fin n) :
      s.phase i = .waiting → s.owner = none →
      GateStep s ⟨upd s.phase i .critical, some i⟩
  | release (s : GateState n) (i : Fin n) (exc : Bool) :
      s.phase i = .critical → GateStep s ⟨upd s.phase i .idle, none⟩

/-- The states the server can reach from startup. -/
inductive GateReachable {n : Nat} : GateState n → Prop where
  | init : GateReachable (gateInit n)
  | step {s t : GateState n} : GateReachable s → GateStep s t → GateReachable t

/-! ### The accept loop

`InferenceServer.serve` (lines 211-229) wraps the whole `while True:
accept / Thread(...).start()` loop in a single `try` whose only handler
catches `KeyboardInterrupt`.  Each loop iteration either accepts and
starts a handler thread, or raises. -/

/-- What one iteration of the accept loop does: accept a connection and
start its handler thread, raise `KeyboardInterrupt`, or raise any other
exception (from `accept()` or from starting the thread). -/
inductive AcceptEvent where
  | accepted
  | interrupted
  | failed (msg : String)

/-- How the accept loop ends. -/
inductive ServeOutcome where
  | running
  | shutdown
  | crashed (msg : String)
deriving DecidableEq

/-- `InferenceServer.serve`'s loop over a sequence of iteration outcomes:
the number of handler threads started before the loop ends, and how it
ends.  Only `KeyboardInterrupt` is caught (graceful shutdown); any other
exception propagates out of `serve` and terminates the listener. -/
def serveLoop : List AcceptEvent → Nat × ServeOutcome
  | [] => (0, .running)
  | .accepted :: evs =>
    let p := serveLoop evs
    (p.1 + 1, p.2)
  | .interrupted :: _ => (0, .shutdown)
  | .failed m :: _ => (0, .crashed m)

/-! ### Timing of `generate`

`generate` (lines 131-158) samples `time.perf_counter()` *before*
`with self.lock:` and computes
`inference_ms = int((time.perf_counter() - start_time) * 1000)` after the
block.  A `GenTrace` records the three relevant instants of one call. -/

/-- The instants of one `generate` call: `tStart` when `perf_counter` is
read at line 136, `tAcquire` when the lock is obtained, `tRelease` when the
`with` block exits (the second `perf_counter` read at line 157 follows
immediately). -/
structure GenTrace where
  tStart : ℚ
  tAcquire : ℚ
  tRelease : ℚ

/-- The `inference_ms` value line 157 computes for a trace:
`int((tRelease - tStart) * 1000)` (`int()` truncates toward zero; on the
non-negative durations of a monotonic clock this is the floor). -/
def GenTrace.inferenceMs (g : GenTrace) : Int :=
  Int.floor ((g.tRelease - g.tStart) * 1000)

/-- The duration of the critical section alone, in the same
milliseconds-with-floor reading. -/
def GenTrace.criticalMs (g : GenTrace) : Int :=
  Int.floor ((g.tRelease - g.tAcquire) * 1000)

/-- The lock invariant: a thread inside the critical section owns the lock. -/
def GateInv {n : Nat} (s : GateState n) : Prop :=
  ∀ i, s.phase i = .critical → s.owner = some i

/-- The concrete two-thread run used to witness the gate theorems:
startup, thread 0 reaches the lock, thread 0 acquires it. -/
def w0 : GateState 2 := gateInit 2

/-- Thread 0 waiting at `with self.lock`. -/
def w1 : GateState 2 := ⟨upd w0.phase 0 .waiting, w0.owner⟩

/-- Thread 0 inside the critical section, owning the lock. -/
def w2 : GateState 2 := ⟨upd w1.phase 0 .critical, some 0⟩

/-- A concrete environment for evaluating the handler on closed inputs.
`dec` decodes ASCII byte lists; `loads` maps a few one-letter texts to
fixed parse results (letter A: a valid request, B: an object without
"prompt", C: a request with an explicit `max_tokens`, D: a bare number,
anything else: a parse error); the engine succeeds on every call. -/
def testEnv : Env where
  dec l := if l.all (fun b => b < 128) then .ok ⟨l.map Char.ofNat⟩
           else .error "utf-8 decode failure"
  loads s :=
    if s = "A" then .ok (.obj [("prompt", .str "p1")])
    else if s = "B" then .ok (.obj [("foo", .str "bar")])
    else if s = "C" then .ok (.obj [("prompt", .str "p2"), ("max_tokens", .num 99)])
    else if s = "D" then .ok (.num 7)
    else .error "Expecting value: line 1 column 1 (char 0)"
  gen k _ _ := if k = 0 then .ok ("r0", 7) else .ok ("r1", 9)

/-- Like `testEnv`, but the first generate call raises. -/
def failEnv : Env where
  dec := testEnv.dec
  loads := testEnv.loads
  gen k _ _ := if k = 0 then .error "boom" else .ok ("r1", 9)

/-- A concrete `generate` trace: the thread waits one second for the lock
and spends one second inside the critical section. -/
def traceEx : GenTrace := ⟨0, 1, 2⟩

/-! ### Framing lemmas -/

theorem splitNl_no_nl {l : List Nat} (h : (10 : Nat) ∉ l) : splitNl l = ([], l) := by
  induction l with
  | nil => rfl
  | cons b rest ih =>
    have hb : b ≠ 10 := fun e => h (e ▸ List.mem_cons_self b rest)
    have hr : (10 : Nat) ∉ rest := fun m => h (List.mem_cons_of_mem _ m)
    simp [splitNl, hb, ih hr]

theorem splitNl_line {l : List Nat} (rest : List Nat) (h : (10 : Nat) ∉ l) :
    splitNl (l ++ 10 :: rest) = (l :: (splitNl rest).1, (splitNl rest).2) := by
  induction l with
  | nil => simp [splitNl]
  | cons b l ih =>
    have hb : b ≠ 10 := fun e => h (e ▸ List.mem_cons_self b l)
    have hl : (10 : Nat) ∉ l := fun m => h (List.mem_cons_of_mem _ m)
    simp [splitNl, hb, ih hl]

theorem splitNl_snd_no_nl (l : List Nat) : (10 : Nat) ∉ (splitNl l).2 := by
  induction l with
  | nil => simp [splitNl]
  | cons b rest ih =>
    by_cases hb : b = 10
    · simpa [splitNl, hb] using ih
    · rcases h1 : (splitNl rest).1 with _ | ⟨f, fs⟩
      · simp only [splitNl, if_neg hb, h1]
        intro hm
        rcases List.mem_cons.mp hm with h | h
        · exact hb h.symm
        · exact ih h
      · simpa [splitNl, hb, h1] using ih

theorem splitNl_append (a b : List Nat) :
    splitNl (a ++ b) =
      ((splitNl a).1 ++ (splitNl ((splitNl a).2 ++ b)).1,
        (splitNl ((splitNl a).2 ++ b)).2) := by
  induction a with
  | nil => simp [splitNl]
  | cons x a ih =>
    by_cases hx : x = 10
    · subst hx
      simp [splitNl, ih]
    · rcases hA : (splitNl a).1 with _ | ⟨l, ls⟩
      · have hA2 : splitNl (x :: a) = ([], x :: (splitNl a).2) := by
          simp [splitNl, hx, hA]
        rcases hB : (splitNl ((splitNl a).2 ++ b)).1 with _ | ⟨m, ms⟩
        · simp [splitNl, List.cons_append, ih, hx, hA, hB, hA2]
        · simp [splitNl, List.cons_append, ih, hx, hA, hB, hA2]
      · have hA2 : splitNl (x :: a) = ((x :: l) :: ls, (splitNl a).2) := by
          simp [splitNl, hx, hA]
        simp [splitNl, List.cons_append, ih, hx, hA, hA2]

theorem splitNl_frames {frames : List (List Nat)}
    (h : ∀ f ∈ frames, (10 : Nat) ∉ f) :
    splitNl ((frames.map (fun f => f ++ [10])).flatten) = (frames, []) := by
  induction frames with
  | nil => rfl
  | cons f fs ih =>
    have hf : (10 : Nat) ∉ f := h f (List.mem_cons_self f fs)
    have hfs : ∀ g ∈ fs, (10 : Nat) ∉ g := fun g hg => h g (List.mem_cons_of_mem _ hg)
    have : f ++ [10] ++ (fs.map (fun g => g ++ [10])).flatten =
        f ++ 10 :: (fs.map (fun g => g ++ [10])).flatten := by
      simp
    simp [List.flatten_cons, this, splitNl_line _ hf, ih hfs]

theorem processLines_append (env : Env) (c : List (Json × Json))
    (ls₁ ls₂ : List (List Nat)) :
    processLines env c (ls₁ ++ ls₂) =
      ((processLines env c ls₁).1 ++
          (processLines env (processLines env c ls₁).2 ls₂).1,
        (processLines env (processLines env c ls₁).2 ls₂).2) := by
  induction ls₁ generalizing c with
  | nil => simp [processLines]
  | cons l ls ih =>
    by_cases hw : wsOnly l
    · simp [processLines, hw, ih]
    · simp [processLines, hw, ih]

theorem handleClient_eq (env : Env) (reads : List (List Nat))
    (c : List (Json × Json)) (buffer : List Nat)
    (hne : ∀ d ∈ reads, d ≠ []) (hb : (10 : Nat) ∉ buffer) :
    handleClient env c buffer reads =
      processLines env c (splitNl (buffer ++ reads.flatten)).1 := by
  induction reads generalizing c buffer with
  | nil =>
    simp [handleClient, splitNl_no_nl hb, processLines]
  | cons d reads ih =>
    have hd : d.isEmpty = false := by
      cases d with
      | nil => exact absurd rfl (hne [] (List.mem_cons_self _ _))
      | cons x xs => rfl
    have hne2 : ∀ x ∈ reads, x ≠ [] := fun x hx => hne x (List.mem_cons_of_mem _ hx)
    have hstep := ih (c := (processLines env c (splitNl (buffer ++ d)).1).2)
      ((splitNl (buffer ++ d)).2) hne2 (splitNl_snd_no_nl _)
    have hsplit := splitNl_append (buffer ++ d) reads.flatten
    calc handleClient env c buffer (d :: reads) =
        ((processLines env c (splitNl (buffer ++ d)).1).1 ++
            (handleClient env (processLines env c (splitNl (buffer ++ d)).1).2
              (splitNl (buffer ++ d)).2 reads).1,
          (handleClient env (processLines env c (splitNl (buffer ++ d)).1).2
            (splitNl (buffer ++ d)).2 reads).2) := by
          simp [handleClient, hd]
      _ = processLines env c (splitNl (buffer ++ (d :: reads).flatten)).1 := by
          rw [hstep]
          have hassoc : buffer ++ (d :: reads).flatten = (buffer ++ d) ++ reads.flatten := by
            simp [List.flatten_cons]
          rw [hassoc, hsplit, processLines_append]

theorem processLines_length (env : Env) (c : List (Json × Json))
    (ls : List (List Nat)) (h : ∀ l ∈ ls, wsOnly l = false) :
    (processLines env c ls).1.length = ls.length := by
  induction ls generalizing c with
  | nil => rfl
  | cons l ls ih =>
    have hl : wsOnly l = false := h l (List.mem_cons_self _ _)
    have hls : ∀ x ∈ ls, wsOnly x = false := fun x hx => h x (List.mem_cons_of_mem _ hx)
    simp only [processLines, hl, Bool.false_eq_true, if_false, List.length_cons]
    rw [ih _ hls]

/-! ### Gate lemmas -/

theorem gateInv_init (n : Nat) : GateInv (gateInit n) := by
  intro i h
  simp [gateInit] at h

theorem gateInv_step {n : Nat} {s t : GateState n} (hs : GateInv s)
    (st : GateStep s t) : GateInv t := by
  cases st with
  | request i hi =>
    intro j hj
    by_cases hji : j = i
    · subst hji
      simp [upd] at hj
    · simp only [upd, if_neg hji] at hj
      exact hs j hj
  | acquire i hi ho =>
    intro j hj
    by_cases hji : j = i
    · subst hji
      rfl
    · simp only [upd, if_neg hji] at hj
      have := hs j hj
      rw [ho] at this
      cases this
  | release i exc hi =>
    intro j hj
    by_cases hji : j = i
    · subst hji
      simp [upd] at hj
    · simp only [upd, if_neg hji] at hj
      have h1 := hs i hi
      have h2 := hs j hj
      rw [h1] at h2
      exact absurd (Option.some.inj h2) (fun e => hji e.symm)

theorem gateReachable_inv {n : Nat} {s : GateState n} (h : GateReachable s) :
    GateInv s := by
  induction h with
  | init => exact gateInv_init n
  | step _ st ih => exact gateInv_step ih st

theorem w2_reachable : GateReachable w2 :=
  GateReachable.step
    (GateReachable.step GateReachable.init (GateStep.request w0 0 rfl))
    (GateStep.acquire w1 0 rfl rfl)

/-! ### Request-pipeline lemmas -/

theorem foldl_lookup_keep {key : String} (kvs : List (String × Json))
    (acc : Option Json) (h : ∀ kv ∈ kvs, (kv.1 == key) = false) :
    kvs.foldl (fun a kv => if kv.1 == key then some kv.2 else a) acc = acc := by
  induction kvs generalizing acc with
  | nil => rfl
  | cons kv rest ih =>
    have hk := h kv (List.mem_cons_self _ _)
    have hr : ∀ x ∈ rest, (x.1 == key) = false :=
      fun x hx => h x (List.mem_cons_of_mem _ hx)
    simp only [List.foldl_cons, hk, Bool.false_eq_true, if_false]
    exact ih acc hr

theorem lookupField_some_any {kvs : List (String × Json)} {key : String}
    {p : Json} (h : lookupField kvs key = some p) :
    kvs.any (fun kv => kv.1 == key) = true := by
  by_contra hany
  have hall : ∀ kv ∈ kvs, (kv.1 == key) = false := by
    intro kv hkv
    rcases Bool.eq_false_or_eq_true (kv.1 == key) with ht | hf
    · exact absurd (List.any_eq_true.mpr ⟨kv, hkv, ht⟩) hany
    · exact hf
  rw [lookupField, foldl_lookup_keep kvs none hall] at h
  cases h

/-- `handle_client` on a connection that delivers exactly two non-blank
frames, starting from any engine-call log: the two per-frame responses,
the second computed from the log the first left behind. -/
theorem handleClient_two_frames (env : Env) (c : List (Json × Json))
    (f1 f2 : List Nat)
    (h1 : (10 : Nat) ∉ f1) (h2 : (10 : Nat) ∉ f2)
    (hw1 : wsOnly f1 = false) (hw2 : wsOnly f2 = false) :
    (handleClient env c [] [f1 ++ [10], f2 ++ [10]]).1 =
      [(lineResponse env c f1).1,
        (lineResponse env (lineResponse env c f1).2 f2).1] := by
  have hne : ∀ d ∈ [f1 ++ [10], f2 ++ [10]], d ≠ [] := by
    intro d hd
    rcases List.mem_cons.mp hd with h | h
    · subst h; simp
    · rcases List.mem_cons.mp h with h | h
      · subst h; simp
      · cases h
  rw [handleClient_eq env _ c [] hne (by simp), List.nil_append]
  have hflat : ([f1 ++ [10], f2 ++ [10]] : List (List Nat)).flatten =
      f1 ++ 10 :: (f2 ++ 10 :: []) := by simp
  rw [hflat, splitNl_line _ h1, splitNl_line _ h2]
  simp [processLines, splitNl, hw1, hw2]

/-- Every `_process_request` run on a parsed value that is not a JSON
object ends in an error: either an exception escaping to `handle_client`'s
`except` clause or the missing-prompt protocol error; the engine is never
invoked. -/
theorem processRequest_nonObj (env : Env) (c : List (Json × Json)) (j : Json)
    (hobj : j.isObj = false) :
    ∃ m, processRequest env c j = (.error m, c)
      ∨ processRequest env c j = (.ok (.error m), c) := by
  cases j with
  | null => exact ⟨_, Or.inl rfl⟩
  | bool b => exact ⟨_, Or.inl rfl⟩
  | num n => exact ⟨_, Or.inl rfl⟩
  | str s =>
    rcases hc : charsInfix "prompt".toList s.toList with _ | _
    · refine ⟨"Missing 'prompt' field", Or.inr ?_⟩
      simp only [processRequest, pyContains, hc]
    · refine ⟨"string indices must be integers", Or.inl ?_⟩
      simp only [processRequest, pyContains, hc, pyGetItem]
  | arr xs =>
    rcases hc : xs.any (fun e => jsonEqStr e "prompt") with _ | _
    · refine ⟨"Missing 'prompt' field", Or.inr ?_⟩
      simp only [processRequest, pyContains, hc]
    · refine ⟨"list indices must be integers or slices, not str", Or.inl ?_⟩
      simp only [processRequest, pyContains, hc, pyGetItem]
  | obj kvs => cases hobj

/-! ### Serialization lemmas -/

theorem hexChar_mem (n : Nat) : hexChar n ∈ hexChars := by
  have h : n % 16 < hexChars.length := by
    have h16 : n % 16 < 16 := Nat.mod_lt _ (by norm_num)
    have hlen : hexChars.length = 16 := by decide
    omega
  rw [hexChar, List.getD_eq_getElem _ _ h]
  exact List.getElem_mem h

theorem hexChar_ne_nl (n : Nat) : hexChar n ≠ '\n' := by
  have hmem := hexChar_mem n
  have hall : ∀ c ∈ hexChars, c ≠ '\n' := by decide
  exact hall _ hmem

theorem mem_hex4 {x : Char} {n : Nat} (h : x ∈ hex4 n) : ∃ k, x = hexChar k := by
  simp only [hex4, List.mem_cons, List.not_mem_nil, or_false] at h
  rcases h with h | h | h | h
  · exact ⟨_, h⟩
  · exact ⟨_, h⟩
  · exact ⟨_, h⟩
  · exact ⟨_, h⟩

theorem escapeChar_no_nl (c : Char) : '\n' ∉ escapeChar c := by
  unfold escapeChar
  split_ifs with h1 h2 h3 h4 h5 h6 h7 h8 h9
  · decide
  · decide
  · decide
  · decide
  · decide
  · decide
  · decide
  · intro hm
    rcases List.mem_cons.mp hm with h | h
    · exact absurd h (by decide)
    · rcases List.mem_cons.mp h with h | h
      · exact absurd h (by decide)
      · rcases mem_hex4 h with ⟨k, hk⟩
        exact hexChar_ne_nl k hk.symm
  · intro hm
    rcases List.mem_cons.mp hm with h | h
    · exact absurd h (by decide)
    · rcases List.mem_cons.mp h with h | h
      · exact absurd h (by decide)
      · rcases List.mem_append.mp h with h | h
        · rcases mem_hex4 h with ⟨k, hk⟩
          exact hexChar_ne_nl k hk.symm
        · rcases List.mem_cons.mp h with h | h
          · exact absurd h (by decide)
          · rcases List.mem_cons.mp h with h | h
            · exact absurd h (by decide)
            · rcases mem_hex4 h with ⟨k, hk⟩
              exact hexChar_ne_nl k hk.symm
  · intro hm
    rcases List.mem_cons.mp hm with h | h
    · exact h3 h.symm
    · cases h

theorem dumpStr_no_nl (s : String) : '\n' ∉ (dumpStr s).toList := by
  intro hm
  rcases List.mem_cons.mp hm with h | h
  · cases h
  · rcases List.mem_append.mp h with h | h
    · rcases List.mem_flatten.mp h with ⟨l, hl, hc⟩
      rcases List.mem_map.mp hl with ⟨ch, _, rfl⟩
      exact escapeChar_no_nl ch hc
    · rcases List.mem_cons.mp h with h | h
      · cases h
      · cases h

theorem natChars_no_nl (n : Nat) : '\n' ∉ natChars n := by
  induction n using Nat.strong_induction_on with
  | _ n ih =>
    rw [natChars]
    by_cases h : n < 10
    · rw [if_pos h]
      intro hm
      rcases List.mem_cons.mp hm with h2 | h2
      · exact hexChar_ne_nl n h2.symm
      · cases h2
    · rw [if_neg h]
      intro hm
      rcases List.mem_append.mp hm with h2 | h2
      · exact ih (n / 10) (Nat.div_lt_self (by omega) (by omega)) h2
      · rcases List.mem_cons.mp h2 with h3 | h3
        · exact hexChar_ne_nl _ h3.symm
        · cases h3

theorem renderInt_no_nl (i : Int) : '\n' ∉ (renderInt i).toList := by
  rw [renderInt]
  split_ifs
  · intro hm
    rcases List.mem_cons.mp hm with h | h
    · cases h
    · exact natChars_no_nl _ h
  · exact natChars_no_nl _

theorem dumps_no_nl (r : Response) : '\n' ∉ (dumps r).toList := by
  cases r with
  | success t ms =>
    intro hm
    simp only [dumps, String.toList, String.data_append] at hm
    rcases List.mem_append.mp hm with h | h
    · rcases List.mem_append.mp h with h | h
      · rcases List.mem_append.mp h with h | h
        · rcases List.mem_append.mp h with h | h
          · revert h; decide
          · exact dumpStr_no_nl t h
        · revert h; decide
      · exact renderInt_no_nl ms h
    · revert h; decide
  | error m =>
    intro hm
    simp only [dumps, String.toList, String.data_append] at hm
    rcases List.mem_append.mp hm with h | h
    · rcases List.mem_append.mp h with h | h
      · revert h; decide
      · exact dumpStr_no_nl m h
    · revert h; decide

/-! ### Claim theorems -/

/-- C1: for any byte stream formed by splitting N well-formed request
frames at arbitrary byte boundaries across any number of (non-empty)
reads, `handle_client` produces exactly the per-frame responses, one per
frame and in frame order (strict per-connection FIFO), independent of the
split points; whitespace-only frames produce no response. -/
theorem framing_fifo (env : Env) (reads frames : List (List Nat))
    (c : List (Json × Json))
    (hjoin : reads.flatten = (frames.map (fun f => f ++ [10])).flatten)
    (hnl : ∀ f ∈ frames, (10 : Nat) ∉ f)
    (hne : ∀ d ∈ reads, d ≠ []) :
    (handleClient env c [] reads).1 = (processLines env c frames).1
    ∧ ((∀ f ∈ frames, wsOnly f = false) →
        (handleClient env c [] reads).1.length = frames.length)
    ∧ (∀ (l : List Nat) (ls : List (List Nat)) (c2 : List (Json × Json)),
        wsOnly l = true →
        (processLines env c2 (l :: ls)).1 = (processLines env c2 ls).1) := by
  have h1 : handleClient env c [] reads = processLines env c frames := by
    rw [handleClient_eq env reads c [] hne (by simp), List.nil_append, hjoin,
      splitNl_frames hnl]
  refine ⟨by rw [h1], ?_, ?_⟩
  · intro hws
    rw [h1]
    exact processLines_length env c frames hws
  · intro l ls c2 hw
    simp [processLines, hw]

/-- Witness for C1: two frames (a valid request and a request missing
"prompt") split unevenly across two reads give exactly the two per-frame
responses in order. -/
theorem framing_fifo_witness :
    (handleClient testEnv [] [] [[65, 10, 66], [10]]).1 =
        (processLines testEnv [] [[65], [66]]).1
    ∧ ((∀ f ∈ [[65], [66]], wsOnly f = false) →
        (handleClient testEnv [] [] [[65, 10, 66], [10]]).1.length =
          [[65], [66]].length)
    ∧ (∀ (l : List Nat) (ls : List (List Nat)) (c2 : List (Json × Json)),
        wsOnly l = true →
        (processLines testEnv c2 (l :: ls)).1 = (processLines testEnv c2 ls).1) :=
  framing_fifo testEnv [[65, 10, 66], [10]] [[65], [66]] []
    (by decide) (by decide) (by decide)

/-- C2: in every reachable state of the serialization-gate system, at most
one connection-handler thread is inside `generate`'s `with self.lock:`
block: no two engine calls are ever active at the same time, for any
number of threads. -/
theorem mutual_exclusion {n : Nat} {s : GateState n} (h : GateReachable s)
    (i j : Fin n) (hi : s.phase i = .critical) (hj : s.phase j = .critical) :
    i = j := by
  have inv := gateReachable_inv h
  have h1 := inv i hi
  have h2 := inv j hj
  rw [h1] at h2
  exact Option.some.inj h2

/-- Witness for C2: the two-thread run in which thread 0 has acquired the
lock reaches a state with a thread in the critical section, and the
theorem applies there. -/
theorem mutual_exclusion_witness :
    GateReachable w2 ∧ w2.phase 0 = .critical ∧ (0 : Fin 2) = 0 :=
  ⟨w2_reachable, rfl, mutual_exclusion w2_reachable 0 0 rfl rfl⟩

/-- C3 counterexample: `generate` samples `start_time` before acquiring
the lock, so with one second of gate waiting and one second of critical
section the returned `inference_ms` is 2000, not the critical-section
duration 1000: it does not exclude queueing time. -/
theorem inference_ms_counterexample :
    traceEx.tStart ≤ traceEx.tAcquire ∧ traceEx.tAcquire ≤ traceEx.tRelease
    ∧ traceEx.inferenceMs = 2000 ∧ traceEx.criticalMs = 1000
    ∧ traceEx.inferenceMs ≠ traceEx.criticalMs := by
  refine ⟨by norm_num [traceEx], by norm_num [traceEx], ?_, ?_, ?_⟩
  · norm_num [traceEx, GenTrace.inferenceMs]
  · norm_num [traceEx, GenTrace.criticalMs]
  · norm_num [traceEx, GenTrace.inferenceMs, GenTrace.criticalMs]

/-- C3 (amended): `inference_ms` is a non-negative integer measuring the
wall clock of the whole `generate` call from before the gate is acquired
to after the critical section ends — it includes gate-waiting time, and is
therefore at least the critical-section duration. -/
theorem inference_ms_nonneg_includes_wait (g : GenTrace)
    (h1 : g.tStart ≤ g.tAcquire) (h2 : g.tAcquire ≤ g.tRelease) :
    0 ≤ g.inferenceMs ∧ g.criticalMs ≤ g.inferenceMs := by
  constructor
  · have : (0 : ℚ) ≤ (g.tRelease - g.tStart) * 1000 := by nlinarith
    exact Int.floor_nonneg.mpr this
  · apply Int.floor_le_floor
    nlinarith

/-- Witness for C3 (amended) at the concrete trace. -/
theorem inference_ms_nonneg_includes_wait_witness :
    0 ≤ traceEx.inferenceMs ∧ traceEx.criticalMs ≤ traceEx.inferenceMs :=
  inference_ms_nonneg_includes_wait traceEx (by norm_num [traceEx])
    (by norm_num [traceEx])

/-- C8 counterexample: the `try` in `serve` wraps the whole accept loop
and catches only `KeyboardInterrupt`, so an exception raised while
accepting one connection terminates the listener before the next
connection is accepted — here a failure followed by a would-be connection
starts zero handler threads and crashes. -/
theorem accept_loop_counterexample :
    serveLoop [.failed "boom", .accepted] = (0, .crashed "boom")
    ∧ (serveLoop [.failed "boom", .accepted]).1 = 0
    ∧ (serveLoop [.failed "boom", .accepted]).2 ≠ .shutdown := by
  refine ⟨rfl, rfl, ?_⟩
  intro h
  simp [serveLoop] at h

/-- C8 (amended): the accept loop keeps accepting after each successful
iteration, exits gracefully on `KeyboardInterrupt`, and terminates (crash,
no further accepts) on any other exception raised while accepting or while
starting a handler thread. -/
theorem accept_loop_behavior (evs : List AcceptEvent) (m : String) :
    serveLoop (.accepted :: evs) = ((serveLoop evs).1 + 1, (serveLoop evs).2)
    ∧ serveLoop (.interrupted :: evs) = (0, .shutdown)
    ∧ serveLoop (.failed m :: evs) = (0, .crashed m) :=
  ⟨rfl, rfl, rfl⟩

/-- C4: a frame that parses as a JSON object without the key "prompt"
yields exactly the response `{"error": "Missing 'prompt' field"}` followed
by a newline, does not invoke the engine (the call log is unchanged), and
does not close the connection: a subsequent valid request on the same
connection still receives a success response. -/
theorem missing_prompt_field (env : Env) (kvs : List (String × Json))
    (line good : List Nat) (s t : String) (p : Json) (r : String) (ms : Int)
    (hdec : env.dec line = .ok s) (hloads : env.loads s = .ok (.obj kvs))
    (hno : ∀ kv ∈ kvs, kv.1 ≠ "prompt")
    (hdec2 : env.dec good = .ok t)
    (hloads2 : env.loads t = .ok (.obj [("prompt", p)]))
    (hgen : env.gen 0 p (.num 50) = .ok (r, ms))
    (hl1 : (10 : Nat) ∉ line) (hl2 : (10 : Nat) ∉ good)
    (hw1 : wsOnly line = false) (hw2 : wsOnly good = false) :
    lineResponse env [] line = (.error "Missing 'prompt' field", [])
    ∧ respLine (.error "Missing 'prompt' field") =
        "\x7b\"error\": \"Missing 'prompt' field\"\x7d\n"
    ∧ (handleClient env [] [] [line ++ [10], good ++ [10]]).1 =
        [.error "Missing 'prompt' field", .success r ms] := by
  have hany : kvs.any (fun kv => kv.1 == "prompt") = false := by
    apply List.any_eq_false.mpr
    intro kv hkv
    simp only [beq_iff_eq]
    exact hno kv hkv
  have hfirst : lineResponse env [] line = (.error "Missing 'prompt' field", []) := by
    simp only [lineResponse, hdec, hloads, processRequest, pyContains, hany]
  have hsecond : lineResponse env [] good = (.success r ms, [(p, .num 50)]) := by
    simp only [lineResponse, hdec2, hloads2, processRequest, pyContains,
      pyGetItem, pyGetDefault, lookupField, List.foldl_cons, List.foldl_nil,
      List.any_cons, List.any_nil]
    simp [hgen]
  refine ⟨hfirst, rfl, ?_⟩
  rw [handleClient_two_frames env [] line good hl1 hl2 hw1 hw2, hfirst, hsecond]

/-- Witness for C4 at the concrete environment: a frame parsed as
`{"foo": "bar"}` then a valid request. -/
theorem missing_prompt_field_witness :
    lineResponse testEnv [] [66] = (.error "Missing 'prompt' field", [])
    ∧ respLine (.error "Missing 'prompt' field") =
        "\x7b\"error\": \"Missing 'prompt' field\"\x7d\n"
    ∧ (handleClient testEnv [] [] [[66] ++ [10], [65] ++ [10]]).1 =
        [.error "Missing 'prompt' field", .success "r0" 7] :=
  missing_prompt_field testEnv [("foo", .str "bar")] [66] [65] "B" "A"
    (.str "p1") "r0" 7 rfl rfl (by decide) rfl rfl rfl
    (by decide) (by decide) (by decide) (by decide)

/-- C5: a frame whose bytes fail UTF-8 decoding produces exactly one error
response carrying the decode exception's message, and a frame that decodes
but does not parse as JSON produces exactly one "Invalid JSON: ..." error
response; neither invokes the engine or closes the connection, and in both
cases a following well-formed frame on the same connection still gets its
success response. -/
theorem malformed_frame_recovery (env : Env) (lineD lineJ good : List Nat)
    (c : List (Json × Json)) (e1 s e2 t : String) (p : Json)
    (r : String) (ms : Int)
    (hdecD : env.dec lineD = .error e1)
    (hdecJ : env.dec lineJ = .ok s) (hloadsJ : env.loads s = .error e2)
    (hdec2 : env.dec good = .ok t)
    (hloads2 : env.loads t = .ok (.obj [("prompt", p)]))
    (hgen : env.gen 0 p (.num 50) = .ok (r, ms))
    (hlD : (10 : Nat) ∉ lineD) (hlJ : (10 : Nat) ∉ lineJ)
    (hl2 : (10 : Nat) ∉ good)
    (hwD : wsOnly lineD = false) (hwJ : wsOnly lineJ = false)
    (hw2 : wsOnly good = false) :
    lineResponse env c lineD = (.error e1, c)
    ∧ lineResponse env c lineJ = (.error ("Invalid JSON: " ++ e2), c)
    ∧ (handleClient env [] [] [lineD ++ [10], good ++ [10]]).1 =
        [.error e1, .success r ms]
    ∧ (handleClient env [] [] [lineJ ++ [10], good ++ [10]]).1 =
        [.error ("Invalid JSON: " ++ e2), .success r ms] := by
  have hD : ∀ c2, lineResponse env c2 lineD = (.error e1, c2) := by
    intro c2
    simp only [lineResponse, hdecD]
  have hJ : ∀ c2, lineResponse env c2 lineJ =
      (.error ("Invalid JSON: " ++ e2), c2) := by
    intro c2
    simp only [lineResponse, hdecJ, hloadsJ]
  have hsecond : lineResponse env [] good = (.success r ms, [(p, .num 50)]) := by
    simp only [lineResponse, hdec2, hloads2, processRequest, pyContains,
      pyGetItem, pyGetDefault, lookupField, List.foldl_cons, List.foldl_nil,
      List.any_cons, List.any_nil]
    simp [hgen]
  refine ⟨hD c, hJ c, ?_, ?_⟩
  · rw [handleClient_two_frames env [] lineD good hlD hl2 hwD hw2, hD, hsecond]
  · rw [handleClient_two_frames env [] lineJ good hlJ hl2 hwJ hw2, hJ, hsecond]

/-- Witness for C5 at the concrete environment: an undecodable byte frame
and an unparseable text frame, each followed by a valid request. -/
theorem malformed_frame_recovery_witness :
    lineResponse testEnv [] [200] = (.error "utf-8 decode failure", [])
    ∧ lineResponse testEnv [] [69] =
        (.error ("Invalid JSON: " ++ "Expecting value: line 1 column 1 (char 0)"), [])
    ∧ (handleClient testEnv [] [] [[200] ++ [10], [65] ++ [10]]).1 =
        [.error "utf-8 decode failure", .success "r0" 7]
    ∧ (handleClient testEnv [] [] [[69] ++ [10], [65] ++ [10]]).1 =
        [.error ("Invalid JSON: " ++ "Expecting value: line 1 column 1 (char 0)"),
          .success "r0" 7] :=
  malformed_frame_recovery testEnv [200] [69] [65] [] "utf-8 decode failure"
    "E" "Expecting value: line 1 column 1 (char 0)" "A" (.str "p1") "r0" 7
    rfl rfl rfl rfl rfl rfl
    (by decide) (by decide) (by decide) (by decide) (by decide) (by decide)

/-- C6: for every valid request (any environment, any request object
carrying "prompt", any prior engine-call history) whose generate call
raises, with any exception message: leaving `generate`'s `with self.lock:`
block frees the lock on the exceptional path exactly as on the normal one
(the release step is enabled for either outcome, in every reachable state,
and the resulting state's owner is `none`); `_process_request` catches the
exception and returns an error response carrying exactly the exception's
message; the handler emits that response; and the connection stays open
and usable: a following valid request on the same connection is still
served normally. -/
theorem engine_error_recovery (n : Nat) (gs : GateState n) (i : Fin n)
    (hgr : GateReachable gs) (hgc : gs.phase i = .critical) (exc : Bool)
    (env : Env) (c : List (Json × Json)) (kvs : List (String × Json))
    (line good : List Nat) (s t : String) (p p2 : Json) (e r : String)
    (ms : Int)
    (hp : lookupField kvs "prompt" = some p)
    (hgenerr : env.gen c.length p
        ((lookupField kvs "max_tokens").getD (.num 50)) = .error e)
    (hdec : env.dec line = .ok s) (hloads : env.loads s = .ok (.obj kvs))
    (hdec2 : env.dec good = .ok t)
    (hloads2 : env.loads t = .ok (.obj [("prompt", p2)]))
    (hgen2 : env.gen (c.length + 1) p2 (.num 50) = .ok (r, ms))
    (hl1 : (10 : Nat) ∉ line) (hl2 : (10 : Nat) ∉ good)
    (hw1 : wsOnly line = false) (hw2 : wsOnly good = false) :
    GateStep gs ⟨upd gs.phase i .idle, none⟩
    ∧ (GateState.mk (upd gs.phase i .idle) none).owner = none
    ∧ processRequest env c (.obj kvs) =
        (.ok (.error e),
          c ++ [(p, (lookupField kvs "max_tokens").getD (.num 50))])
    ∧ lineResponse env c line =
        (.error e, c ++ [(p, (lookupField kvs "max_tokens").getD (.num 50))])
    ∧ (handleClient env c [] [line ++ [10], good ++ [10]]).1 =
        [.error e, .success r ms] := by
  have hany := lookupField_some_any hp
  have hreq : processRequest env c (.obj kvs) =
      (.ok (.error e),
        c ++ [(p, (lookupField kvs "max_tokens").getD (.num 50))]) := by
    simp only [processRequest, pyContains, hany, pyGetItem, hp, pyGetDefault,
      hgenerr]
  have hline : lineResponse env c line =
      (.error e, c ++ [(p, (lookupField kvs "max_tokens").getD (.num 50))]) := by
    simp only [lineResponse, hdec, hloads, hreq]
  have hsecond : ∀ c2 : List (Json × Json), c2.length = c.length + 1 →
      lineResponse env c2 good = (.success r ms, c2 ++ [(p2, .num 50)]) := by
    intro c2 hc2
    simp only [lineResponse, hdec2, hloads2, processRequest, pyContains,
      pyGetItem, pyGetDefault, lookupField, List.foldl_cons, List.foldl_nil,
      List.any_cons, List.any_nil]
    simp [hc2, hgen2]
  refine ⟨GateStep.release gs i exc hgc, rfl, hreq, hline, ?_⟩
  rw [handleClient_two_frames env c line good hl1 hl2 hw1 hw2, hline]
  rw [hsecond (c ++ [(p, (lookupField kvs "max_tokens").getD (.num 50))])
    (by simp)]

/-- Witness for C6: the reachable two-thread state with thread 0 in the
critical section, and the concrete environment whose first generate call
raises "boom" while the second succeeds. -/
theorem engine_error_recovery_witness :
    GateStep w2 ⟨upd w2.phase 0 .idle, none⟩
    ∧ (GateState.mk (upd w2.phase 0 .idle) none).owner = none
    ∧ processRequest failEnv [] (.obj [("prompt", .str "p1")]) =
        (.ok (.error "boom"), [(.str "p1", .num 50)])
    ∧ lineResponse failEnv [] [65] = (.error "boom", [(.str "p1", .num 50)])
    ∧ (handleClient failEnv [] [] [[65] ++ [10], [65] ++ [10]]).1 =
        [.error "boom", .success "r1" 9] :=
  engine_error_recovery 2 w2 0 w2_reachable rfl true failEnv []
    [("prompt", .str "p1")] [65] [65] "A" "A" (.str "p1") (.str "p1")
    "boom" "r1" 9 rfl rfl rfl rfl rfl rfl rfl
    (by decide) (by decide) (by decide) (by decide)

/-- C7: a valid request without "max_tokens" reaches the engine with
`max_tokens = 50`; when "max_tokens" is present its value is forwarded to
the engine as given (the call log records the exact `(prompt, max_tokens)`
arguments of the one generate invocation). -/
theorem default_max_tokens (env : Env) (c : List (Json × Json))
    (kvs : List (String × Json)) (p : Json)
    (hp : lookupField kvs "prompt" = some p) :
    (lookupField kvs "max_tokens" = none →
      (processRequest env c (.obj kvs)).2 = c ++ [(p, .num 50)])
    ∧ (∀ v, lookupField kvs "max_tokens" = some v →
      (processRequest env c (.obj kvs)).2 = c ++ [(p, v)]) := by
  have hany := lookupField_some_any hp
  constructor
  · intro hnone
    simp only [processRequest, pyContains, hany, pyGetItem, hp, pyGetDefault,
      hnone, Option.getD_none]
    rcases hg : env.gen c.length p (.num 50) with e | ⟨r, ms⟩ <;> simp [hg]
  · intro v hv
    simp only [processRequest, pyContains, hany, pyGetItem, hp, pyGetDefault,
      hv, Option.getD_some]
    rcases hg : env.gen c.length p v with e | ⟨r, ms⟩ <;> simp [hg]

/-- Witness for C7: a request without `max_tokens` and one carrying 99. -/
theorem default_max_tokens_witness :
    (processRequest testEnv [] (.obj [("prompt", .str "p1")])).2 =
        [(.str "p1", .num 50)]
    ∧ (processRequest testEnv []
        (.obj [("prompt", .str "p2"), ("max_tokens", .num 99)])).2 =
        [(.str "p2", .num 99)] :=
  ⟨(default_max_tokens testEnv [] [("prompt", .str "p1")] (.str "p1") rfl).1 rfl,
    (default_max_tokens testEnv [] [("prompt", .str "p2"), ("max_tokens", .num 99)]
      (.str "p2") rfl).2 (.num 99) rfl⟩

/-- C9: every response is serialized as a single JSON object followed by
exactly one newline (the serialized object itself contains no newline,
every control character being escaped), and its shape is exactly one of:
a success object with keys "response" and "inference_ms", or an error
object whose wire key is "error" — never "message", and never success and
error fields mixed in one object. -/
theorem wire_format_shape (r : Response) :
    respLine r = dumps r ++ "\n"
    ∧ (dumps r).toList.count '\n' = 0
    ∧ (respLine r).toList.count '\n' = 1
    ∧ ((∃ s ms, r = .success s ms ∧
          responseJson r = .obj [("response", .str s), ("inference_ms", .num ms)])
        ∨ (∃ m, r = .error m ∧ responseJson r = .obj [("error", .str m)]))
    ∧ (∀ kvs, responseJson r = .obj kvs →
        (kvs.map Prod.fst = ["response", "inference_ms"]
          ∨ kvs.map Prod.fst = ["error"])
        ∧ "message" ∉ kvs.map Prod.fst
        ∧ ¬("response" ∈ kvs.map Prod.fst ∧ "error" ∈ kvs.map Prod.fst)) := by
  refine ⟨rfl, List.count_eq_zero.mpr (dumps_no_nl r), ?_, ?_, ?_⟩
  · have : (respLine r).toList = (dumps r).toList ++ "\n".toList := by
      simp [respLine, String.toList, String.data_append]
    rw [this, List.count_append, List.count_eq_zero.mpr (dumps_no_nl r)]
    decide
  · cases r with
    | success s ms => exact Or.inl ⟨s, ms, rfl, rfl⟩
    | error m => exact Or.inr ⟨m, rfl, rfl⟩
  · intro kvs hkvs
    cases r with
    | success s ms =>
      cases hkvs
      refine ⟨Or.inl rfl, ?_, ?_⟩
      · simp
      · intro h
        simp at h
    | error m =>
      cases hkvs
      refine ⟨Or.inr rfl, ?_, ?_⟩
      · simp
      · intro h
        simp at h

/-- C10: a non-whitespace frame whose bytes parse as JSON that is not an
object never escapes as an exception: the handler always produces exactly
one error response for it (the `except` clauses catch every raised
`TypeError`), never invokes the engine, and the connection stays open for
the next request. -/
theorem non_object_frame (env : Env) (c : List (Json × Json))
    (line good : List Nat) (s t : String) (j p : Json) (r : String) (ms : Int)
    (hdec : env.dec line = .ok s) (hloads : env.loads s = .ok j)
    (hobj : j.isObj = false)
    (hdec2 : env.dec good = .ok t)
    (hloads2 : env.loads t = .ok (.obj [("prompt", p)]))
    (hgen : env.gen 0 p (.num 50) = .ok (r, ms))
    (hl1 : (10 : Nat) ∉ line) (hl2 : (10 : Nat) ∉ good)
    (hw1 : wsOnly line = false) (hw2 : wsOnly good = false) :
    (∃ m, lineResponse env c line = (.error m, c))
    ∧ (∃ m, (handleClient env [] [] [line ++ [10], good ++ [10]]).1 =
        [.error m, .success r ms]) := by
  have hline : ∀ c2, ∃ m, lineResponse env c2 line = (.error m, c2) := by
    intro c2
    rcases processRequest_nonObj env c2 j hobj with ⟨m, hm | hm⟩
    · exact ⟨m, by simp only [lineResponse, hdec, hloads, hm]⟩
    · exact ⟨m, by simp only [lineResponse, hdec, hloads, hm]⟩
  have hsecond : lineResponse env [] good = (.success r ms, [(p, .num 50)]) := by
    simp only [lineResponse, hdec2, hloads2, processRequest, pyContains,
      pyGetItem, pyGetDefault, lookupField, List.foldl_cons, List.foldl_nil,
      List.any_cons, List.any_nil]
    simp [hgen]
  refine ⟨hline c, ?_⟩
  rcases hline [] with ⟨m, hm⟩
  refine ⟨m, ?_⟩
  rw [handleClient_two_frames env [] line good hl1 hl2 hw1 hw2, hm, hsecond]

/-- Witness for C10: a frame parsed as the bare number 7, then a valid
request. -/
theorem non_object_frame_witness :
    (∃ m, lineResponse testEnv [] [68] = (.error m, []))
    ∧ (∃ m, (handleClient testEnv [] [] [[68] ++ [10], [65] ++ [10]]).1 =
        [.error m, .success "r0" 7]) :=
  non_object_frame testEnv [] [68] [65] "D" "A" (.num 7) (.str "p1") "r0" 7
    rfl rfl rfl rfl rfl rfl
    (by decide) (by decide) (by decide) (by decide)

end InfServer
